import Mathlib

/-!
Verification development for the LINE-webhook event pipeline of this
repository. Two drafts of the pipeline are embedded:

* namespace `App` — `src/app.js` (the file named `app.js`);
* namespace `Refactored` — `src/unnamed/part_000` (the refactored draft,
  `app.refactored.js` per its header comment).

Functions whose bodies are identical in both drafts (`sanitizeMessages`,
the retry loop, `eventKey`, `isDuplicate`, `normalizePayloadText`,
`tapGuardAccept`, `allowRate`, `keyFromEvent`, `lockPerKeyAndRun`, the
webhook batch loop) are defined once at top level.

Modelling conventions:
* JS `null`/`undefined` array entries are `Option.none`; a JS string is
  falsy exactly when it is `""`, which is modelled explicitly.
* Message bodies (text, flex bubbles, images) are opaque `String` tags:
  no claim inspects message content, only list shape and the
  `quickReply` attachment.
* The downstream HTTP API is a response oracle `Nat → SendResult`
  giving the outcome of each numbered attempt; waits (`setTimeout`) are
  recorded in milliseconds.
* Token counts are `ℚ` (JS numbers used only through `+ * min <`),
  timestamps are `Nat` milliseconds (`Date.now()`).
-/

/-- One selectable quick-reply option as supplied to `withQuickReply`
(`i.label`, `i.text` in the source). -/
structure QRItem where
  label : String
  text : String
deriving DecidableEq

/-- The action object `withQuickReply` builds from an item:
`{ type: "action", action: { type: "message", label, text } }`; the two
constant tags are dropped, keeping the label/text payload. -/
structure QRAction where
  label : String
  text : String
deriving DecidableEq

def toAction (i : QRItem) : QRAction := ⟨i.label, i.text⟩

/-- An outbound message: opaque body plus the optional `quickReply`
attachment (`some l` = a `quickReply` field whose `items` array is `l`;
`none` = no `quickReply` field). -/
structure Message where
  body : String
  quickReply : Option (List QRAction)
deriving DecidableEq

def textMessage (s : String) : Message := ⟨s, none⟩

/-- Constant `MAX_REPLY_MESSAGES` (both drafts). -/
def MAX_REPLY_MESSAGES : Nat := 5

/-- Function `sanitizeMessages` (identical in both drafts): `filter(Boolean)`
then `slice(0, MAX_REPLY_MESSAGES)`. -/
def sanitizeMessages (messages : List (Option Message)) : List Message :=
  ((messages.filterMap id).take MAX_REPLY_MESSAGES)

/-- Function `stripEmptyQuickReply` (part_000, lines 213–221; absent from
app.js): removes the `quickReply` field from any message whose items
array is empty. It is applied to the output of `sanitizeMessages`, so
the `m` falsy case of the source cannot arise. -/
def Refactored.stripEmptyQuickReply (messages : List Message) : List Message :=
  messages.map fun m =>
    match m.quickReply with
    | some [] => { m with quickReply := none }
    | _ => m

/-- Function `withQuickReply` of app.js (lines 206–214): builds
`{ items: items.map(...) }` and attaches it to the head message
unconditionally — even when `items` is empty. -/
def App.withQuickReply (messages : List (Option Message)) (items : List QRItem) :
    List Message :=
  let quickReply := items.map toAction
  match sanitizeMessages messages with
  | [] => []
  | head :: rest => { head with quickReply := some quickReply } :: rest

/-- Function `withQuickReply` of part_000 (lines 200–210): returns the compact
list untouched when `items` is empty, filters out falsy items and items
with falsy label/text, and refuses to attach an empty items array. -/
def Refactored.withQuickReply (messages : List (Option Message))
    (items : List (Option QRItem)) : List Message :=
  match sanitizeMessages messages with
  | [] => []
  | head :: rest =>
    if items.isEmpty then head :: rest
    else
      let qItems := ((items.filterMap id).filter
        (fun i => !(i.label = "") && !(i.text = ""))).map toAction
      if qItems.isEmpty then head :: rest
      else { head with quickReply := some qItems } :: rest

/-- Outcome of one HTTP attempt against the LINE API: success, or a
failure carrying `err.response?.status` (`none` = no response, e.g. a
transport error) and the parsed `retry-after` header (`parseInt(… ||
"0")`, hence `0` when the header is missing). -/
inductive SendResult where
  | ok : SendResult
  | fail : (status : Option Int) → (retryAfterSec : Int) → SendResult

def SendResult.statusOf : SendResult → Option Int
  | .ok => none
  | .fail s _ => s

def SendResult.raOf : SendResult → Int
  | .ok => 0
  | .fail _ ra => ra

/-- The retry condition of both drafts:
`status === 429 || (status >= 500 && status < 600)`; an absent status
(JS `undefined`) fails both comparisons. -/
def retryableStatus : Option Int → Bool
  | some s => s == 429 || (500 ≤ s && s < 600)
  | none => false

/-- The backoff computed before the next attempt, after attempt
`attempt` failed:
`retryAfterSec > 0 ? retryAfterSec * 1000 : Math.min(2000 * 2 ** (attempt - 1), 8000)`. -/
def backoffMs (attempt : Nat) (retryAfterSec : Int) : Int :=
  if retryAfterSec > 0 then retryAfterSec * 1000
  else min ((2000 : Int) * 2 ^ (attempt - 1)) 8000

/-- Observable record of one `replyWithRetry`/`pushWithRetry`/
`pushMessage` call: number of POSTs made, the waits slept between
attempts (in order), the error thrown out of the function (`some st` =
an error carrying response status `st` escaped; `none` = the function
returned normally), and the message payload each POST carried. -/
structure SendLog where
  posts : Nat
  waits : List Int
  thrown : Option (Option Int)
  payload : List Message
deriving DecidableEq

/-- The shared 4-attempt retry loop body of `replyWithRetry` (app.js
lines 281–301, part_000 lines 324–343) and `pushWithRetry` (part_000
lines 350–369): run attempts `attempt`, `attempt+1`, … while `fuel`
iterations remain; on a retryable failure sleep the backoff and
continue (the loop also sleeps after its last iteration, then falls out
returning normally); on any other failure rethrow. -/
def sendAttempts (resp : Nat → SendResult) : Nat → Nat → SendLog
  | 0, _ => ⟨0, [], none, []⟩
  | fuel + 1, attempt =>
    match resp attempt with
    | .ok => ⟨1, [], none, []⟩
    | .fail status ra =>
      if retryableStatus status then
        let rest := sendAttempts resp fuel (attempt + 1)
        ⟨rest.posts + 1, backoffMs attempt ra :: rest.waits, rest.thrown, []⟩
      else ⟨1, [], some status, []⟩

/-- Function `replyWithRetry` of app.js (lines 273–302): sanitize, skip when
empty, else POST `messages` with up to `maxAttempts = 4` attempts. -/
def App.replyWithRetry (resp : Nat → SendResult)
    (rawMessages : List (Option Message)) : SendLog :=
  let messages := sanitizeMessages rawMessages
  if messages.isEmpty then ⟨0, [], none, []⟩
  else { sendAttempts resp 4 1 with payload := messages }

/-- Function `pushMessage` of app.js (lines 304–308): a single POST with no
retry loop; a failure propagates to the caller. -/
def App.pushMessage (resp : Nat → SendResult)
    (rawMessages : List (Option Message)) : SendLog :=
  let messages := sanitizeMessages rawMessages
  match resp 1 with
  | .ok => ⟨1, [], none, messages⟩
  | .fail status _ => ⟨1, [], some status, messages⟩

/-- Function `replyWithRetry` of part_000 (lines 317–344): like app.js but the
payload additionally passes `stripEmptyQuickReply` before the loop. -/
def Refactored.replyWithRetry (resp : Nat → SendResult)
    (rawMessages : List (Option Message)) : SendLog :=
  let messages := Refactored.stripEmptyQuickReply (sanitizeMessages rawMessages)
  if messages.isEmpty then ⟨0, [], none, []⟩
  else { sendAttempts resp 4 1 with payload := messages }

/-- Function `pushWithRetry` of part_000 (lines 346–370): the fallback channel
with its own independent 4-attempt loop and the same backoff rule. -/
def Refactored.pushWithRetry (resp : Nat → SendResult)
    (rawMessages : List (Option Message)) : SendLog :=
  let messages := Refactored.stripEmptyQuickReply (sanitizeMessages rawMessages)
  if messages.isEmpty then ⟨0, [], none, []⟩
  else { sendAttempts resp 4 1 with payload := messages }

/-- Observable record of `replyWithRetryOrPush`: the primary `reply` log,
the fallback `push` log (`posts = 0` when no fallback ran), and the
error escaping the combined call, if any. -/
structure DeliveryLog where
  reply : SendLog
  push : SendLog
  thrown : Option (Option Int)
deriving DecidableEq

def emptySendLog : SendLog := ⟨0, [], none, []⟩

/-- An event source descriptor (`event.source`). -/
structure Source where
  type : String
  userId : Option String
  groupId : Option String
  roomId : Option String
deriving DecidableEq

/-- Record for `event.message` (only the fields the pipeline reads). -/
structure MsgEvtBody where
  type : String
  text : String
  id : Option String
deriving DecidableEq

/-- A webhook event (only the fields the pipeline reads;
`postbackData` is `event.postback?.data`, `isRedelivery` is
`event.deliveryContext?.isRedelivery`). -/
structure Event where
  webhookEventId : Option String
  type : String
  source : Option Source
  replyToken : Option String
  message : Option MsgEvtBody
  postbackData : Option String
  isRedelivery : Bool
  timestamp : Nat
deriving DecidableEq

/-- JS truthiness of an optional string: present and nonempty. -/
def strTruthy : Option String → Bool
  | some s => !(s = "")
  | none => false

/-- The fallback condition of `replyWithRetryOrPush` (both drafts):
`event.source?.type === "user" && event.source.userId`; returns the
push address when it is resolvable. -/
def fallbackTarget (ev : Event) : Option String :=
  match ev.source with
  | some s =>
    if s.type = "user" then
      match s.userId with
      | some u => if u = "" then none else some u
      | none => none
    else none
  | none => none

/-- Function `replyWithRetryOrPush` of app.js (lines 310–323): try the primary
reply; if it threw with a 4xx status and the event is from a user with
a truthy `userId`, fall back to the single-attempt `pushMessage`,
otherwise rethrow. -/
def App.replyWithRetryOrPush (rResp pResp : Nat → SendResult) (ev : Event)
    (rawMessages : List (Option Message)) : DeliveryLog :=
  let r := App.replyWithRetry rResp rawMessages
  match r.thrown with
  | none => ⟨r, emptySendLog, none⟩
  | some status =>
    match status, fallbackTarget ev with
    | some s, some _uid =>
      if 400 ≤ s ∧ s < 500 then
        let p := App.pushMessage pResp rawMessages
        ⟨r, p, p.thrown⟩
      else ⟨r, emptySendLog, some status⟩
    | _, _ => ⟨r, emptySendLog, some status⟩

/-- Function `replyWithRetryOrPush` of part_000 (lines 372–385): same gating,
but the fallback is `pushWithRetry` with its own 4-attempt loop. -/
def Refactored.replyWithRetryOrPush (rResp pResp : Nat → SendResult) (ev : Event)
    (rawMessages : List (Option Message)) : DeliveryLog :=
  let r := Refactored.replyWithRetry rResp rawMessages
  match r.thrown with
  | none => ⟨r, emptySendLog, none⟩
  | some status =>
    match status, fallbackTarget ev with
    | some s, some _uid =>
      if 400 ≤ s ∧ s < 500 then
        let p := Refactored.pushWithRetry pResp rawMessages
        ⟨r, p, p.thrown⟩
      else ⟨r, emptySendLog, some status⟩
    | _, _ => ⟨r, emptySendLog, some status⟩

/-- Default of `DEDUPE_TTL_MS` (5 minutes). -/
def DEDUPE_TTL_MS : Nat := 5 * 60 * 1000

/-- Default of `TAP_DEBOUNCE_MS` (1.2 seconds). -/
def TAP_DEBOUNCE_MS : Nat := 1200

/-- Default of `RATE_CAP`. -/
def RATE_CAP : ℚ := 10

/-- Default of `RATE_REFILL` (tokens per second). -/
def RATE_REFILL : ℚ := 1

/-- Function `eventKey` (identical in both drafts): prefer a truthy
`webhookEventId`, else the `type:messageId:timestamp` composite, where
a missing message id and a zero timestamp print as `""` (JS falsy). -/
def eventKey (e : Event) : String :=
  let fallbackKey :=
    e.type ++ ":" ++ ((e.message.bind MsgEvtBody.id).getD "") ++ ":" ++
      (if e.timestamp = 0 then "" else toString e.timestamp)
  match e.webhookEventId with
  | some id => if id = "" then fallbackKey else "id:" ++ id
  | none => fallbackKey

/-- Function `isDuplicate` (in-memory branch, identical in both drafts): a live
entry for the key means duplicate (store untouched); otherwise record
`t + DEDUPE_TTL_MS` and admit. `seenMem` is the map id → expireAt. -/
def isDuplicate (seenMem : String → Option Nat) (e : Event) (t : Nat) :
    Bool × (String → Option Nat) :=
  let key := eventKey e
  match seenMem key with
  | some exp =>
    if exp > t then (true, seenMem)
    else (false, fun k => if k = key then some (t + DEDUPE_TTL_MS) else seenMem k)
  | none => (false, fun k => if k = key then some (t + DEDUPE_TTL_MS) else seenMem k)

/-- Holds when `c` is a whitespace character JS `trim` removes (modelled
on the ASCII range). -/
def isWsChar (c : Char) : Bool := c = ' ' || c = '\t' || c = '\n' || c = '\r'

def dropLeadingWs : List Char → List Char
  | [] => []
  | c :: rest => if isWsChar c then dropLeadingWs rest else c :: rest

/-- JS `String.prototype.trim`: strip whitespace from both ends. -/
def jsTrim (s : String) : String :=
  ⟨(dropLeadingWs (dropLeadingWs s.data).reverse).reverse⟩

/-- JS `toLowerCase`, modelled on the ASCII range. -/
def toLowerChar (c : Char) : Char :=
  if 65 ≤ c.toNat && c.toNat ≤ 90 then Char.ofNat (c.toNat + 32) else c

def jsToLower (s : String) : String := ⟨s.data.map toLowerChar⟩

/-- Function `normalizePayloadText` (identical in both drafts):
`String(s || "").trim().toLowerCase()`. -/
def normalizePayloadText (s : String) : String := jsToLower (jsTrim s)

/-- Function `tapGuardAccept` (in-memory branch, identical in both drafts):
key on `userOrGroupKey|normalizedPayload`; a live entry rejects and
bumps the block counter, otherwise record `t + TAP_DEBOUNCE_MS` and
accept. Returns (accept, new map, new block counter). -/
def tapGuardAccept (tapMem : String → Option Nat) (blocks : Nat)
    (userOrGroupKey payloadText : String) (t : Nat) :
    Bool × (String → Option Nat) × Nat :=
  let norm := normalizePayloadText payloadText
  let mapKey := userOrGroupKey ++ "|" ++ norm
  match tapMem mapKey with
  | some exp =>
    if exp > t then (false, tapMem, blocks + 1)
    else (true, fun k => if k = mapKey then some (t + TAP_DEBOUNCE_MS) else tapMem k, blocks)
  | none =>
    (true, fun k => if k = mapKey then some (t + TAP_DEBOUNCE_MS) else tapMem k, blocks)

/-- One token bucket: `{ tokens, updatedAt }` with `updatedAt` in whole
seconds (`Math.floor(Date.now() / 1000)`). -/
structure RateEntry where
  tokens : ℚ
  updatedAt : Nat
deriving DecidableEq

/-- Function `allowRate` (identical in both drafts): refill
`(nowSec - updatedAt) * RATE_REFILL` tokens capped at `RATE_CAP`; below
1 token reject (store the refilled value, bump the block counter), else
consume exactly one token. `cap`/`refillRate` are the `RATE_CAP`/
`RATE_REFILL` configuration. Returns (allowed, new map, new counter). -/
def allowRate (cap refillRate : ℚ) (rate : String → Option RateEntry)
    (blocks : Nat) (key : String) (nowSec : Nat) :
    Bool × (String → Option RateEntry) × Nat :=
  let cur := (rate key).getD ⟨cap, nowSec⟩
  let refill := ((nowSec : ℚ) - (cur.updatedAt : ℚ)) * refillRate
  let tokens := min cap (cur.tokens + refill)
  if tokens < 1 then
    (false, fun k => if k = key then some ⟨tokens, nowSec⟩ else rate k, blocks + 1)
  else
    (true, fun k => if k = key then some ⟨tokens - 1, nowSec⟩ else rate k, blocks)

/-- Function `keyFromEvent` (identical in both drafts): `user:`/`group:`/`room:`
prefixed id with `"unknown"` for a falsy id, and the bare constant
`"unknown"` for a missing source or any other source type. -/
def keyFromEvent (e : Event) : String :=
  match e.source with
  | some s =>
    if s.type = "user" then "user:" ++ ((s.userId.bind fun u => if u = "" then none else some u).getD "unknown")
    else if s.type = "group" then "group:" ++ ((s.groupId.bind fun g => if g = "" then none else some g).getD "unknown")
    else if s.type = "room" then "room:" ++ ((s.roomId.bind fun r => if r = "" then none else some r).getD "unknown")
    else "unknown"
  | none => "unknown"

/-- A pipeline stage as it is reached, for stating ordering facts about
`processEvent` and the webhook handler. `dedupe` carries the dedupe
key, `rate`/`debounce`/`enqueue` carry the conversation key. -/
inductive Stage where
  | redelivery
  | dedupe (key : String)
  | rate (key : String)
  | debounce (key : String)
  | send
  | enqueue (key : String)
deriving DecidableEq

/-- Mutable in-memory stores the pipeline touches (Redis-less branch):
the dedupe map, the tap-guard map, the rate buckets, and the two
Prometheus block counters. -/
structure ProcState where
  seenMem : String → Option Nat
  tapMem : String → Option Nat
  rate : String → Option RateEntry
  tapBlocks : Nat
  rateBlocks : Nat

def emptyProcState : ProcState := ⟨fun _ => none, fun _ => none, fun _ => none, 0, 0⟩

/-- Result of one `processEvent` call: the updated stores, the trace of
stages reached in order, and the message lists handed to
`replyWithRetryOrPush` (each with the raw list it was called with). -/
structure ProcOut where
  state : ProcState
  trace : List Stage
  sends : List (List (Option Message))

/-- The follow greeting of app.js (content abstracted to a tag). -/
def followMessage : Message := textMessage "follow-greeting"

/-- The FAQ keys of `faqData` (both drafts). -/
def faqKeys : List String := ["駐車場", "服装", "送迎バス", "大宮からタクシー", "更衣室"]

/-- Message `createFaqAnswerFlex key` (flex bubble content abstracted to its
key; it carries no quickReply). -/
def createFaqAnswerFlex (key : String) : Message := textMessage ("faq-answer:" ++ key)

/-- The `"ただいまご案内のご用意がありませんでした。"` text reply
(content abstracted to a tag). -/
def notAvailableMessage : Message := textMessage "not-available"

/-- The unrouted-text fallback message of app.js line 512 (content
abstracted to a tag). -/
def fallbackTextMessage : Message := textMessage "fallback-menu-text"

/-- Function `processEvent` of app.js (lines 449–520), with the domain logic
(`routeMessage2`, app.js lines 246–252 — command routing over the
`routes` table, an external collaborator per the spec) abstracted as
the `route` parameter. `now` is `Date.now()` in ms; `allowRate` is
called with `Math.floor(now / 1000)`. The order of the source is kept:
redelivery check, `isDuplicate`, `allowRate`, then per-type handling
with `tapGuardAccept` for postback and text messages only. -/
def App.processEvent (route : String → Event → Option (List (Option Message)))
    (now : Nat) (ev : Event) (st : ProcState) : ProcOut :=
  if ev.isRedelivery then ⟨st, [.redelivery], []⟩
  else
    let dk := eventKey ev
    let dup := isDuplicate st.seenMem ev now
    let st1 := { st with seenMem := dup.2 }
    if dup.1 then ⟨st1, [.redelivery, .dedupe dk], []⟩
    else
      let userKey := keyFromEvent ev
      let ar := allowRate RATE_CAP RATE_REFILL st1.rate st1.rateBlocks userKey (now / 1000)
      let st2 := { st1 with rate := ar.2.1, rateBlocks := ar.2.2 }
      let base : List Stage := [.redelivery, .dedupe dk, .rate userKey]
      if !ar.1 then ⟨st2, base, []⟩
      else if ev.type = "follow" && strTruthy ev.replyToken then
        ⟨st2, base ++ [.send], [[some followMessage]]⟩
      else if ev.type = "postback" && strTruthy ev.replyToken then
        let data := ev.postbackData.getD ""
        let tg := tapGuardAccept st2.tapMem st2.tapBlocks userKey data now
        let st3 := { st2 with tapMem := tg.2.1, tapBlocks := tg.2.2 }
        if !tg.1 then ⟨st3, base ++ [.debounce userKey], []⟩
        else
          let msgs :=
            if "faq:".data.isPrefixOf data.data then
              let key := String.mk (data.data.drop 4)
              if faqKeys.contains key then [some (createFaqAnswerFlex key)]
              else [some notAvailableMessage]
            else [some notAvailableMessage]
          ⟨st3, base ++ [.debounce userKey, .send], [msgs]⟩
      else if ev.type = "message" &&
          (match ev.message with | some m => m.type = "text" | none => false) &&
          strTruthy ev.replyToken then
        let text := (ev.message.map MsgEvtBody.text).getD ""
        let tg := tapGuardAccept st2.tapMem st2.tapBlocks userKey text now
        let st3 := { st2 with tapMem := tg.2.1, tapBlocks := tg.2.2 }
        if !tg.1 then ⟨st3, base ++ [.debounce userKey], []⟩
        else
          match route (jsTrim text) ev with
          | some msgs => ⟨st3, base ++ [.debounce userKey, .send], [msgs]⟩
          | none =>
            ⟨st3, base ++ [.debounce userKey, .send],
              [(App.withQuickReply [some fallbackTextMessage] []).map some]⟩
      else ⟨st2, base, []⟩

/-- One iteration of the webhook batch loop of app.js (lines 563–567):
`lockPerKeyAndRun(keyFromEvent(ev), () => processEvent(ev))` — the
event is enqueued on its key lane first, and every admission stage then
runs inside the serialized slot. -/
def App.handleEventTrace (route : String → Event → Option (List (Option Message)))
    (now : Nat) (ev : Event) (st : ProcState) : List Stage :=
  Stage.enqueue (keyFromEvent ev) :: (App.processEvent route now ev st).trace

/-- A task submitted to the per-key sequencer: an id and whether it
settles successfully. -/
structure PTask where
  id : Nat
  ok : Bool
deriving DecidableEq

/-- A settled promise, denotationally: the ordered trace of task ids
that ran while producing it, and whether it fulfilled. -/
structure Prom where
  trace : List Nat
  ok : Bool
deriving DecidableEq

def runTask (t : PTask) : Prom := ⟨[t.id], t.ok⟩

/-- Denotation of `Promise.resolve()` — the lane tail used when no entry exists. -/
def presolve : Prom := ⟨[], true⟩

/-- Denotation of `prev.catch(() => \x7b\x7d)`: a rejection is swallowed (the handler
returns `undefined`, fulfilling); a fulfilled promise is unchanged. -/
def pcatchSwallow (p : Prom) : Prom := ⟨p.trace, true⟩

/-- Denotation of `p.then(() => f())`: run `f` only if `p` fulfilled; a rejection
skips `f` and propagates. -/
def pthen (p : Prom) (f : Unit → Prom) : Prom :=
  if p.ok then
    let q := f ()
    ⟨p.trace ++ q.trace, q.ok⟩
  else p

/-- The chain step of `lockPerKeyAndRun` (app.js lines 434–446):
`prev.catch(() => {}).then(() => taskFn())` (the `.finally` cleanup
acts on the lane map, modelled by `laneCleanup`). -/
def chainStep (prev : Prom) (t : PTask) : Prom :=
  pthen (pcatchSwallow prev) fun _ => runTask t

/-- The lane chain built by submitting `ts` in order for one key,
starting from the lane-absent tail `Promise.resolve()`. -/
def laneChain (ts : List PTask) : Prom := ts.foldl chainStep presolve

/-- The `.finally` cleanup of `lockPerKeyAndRun`:
`if (perKeyQueue.get(key) === run) perKeyQueue.delete(key)`. The map
sends a key to the id of its current tail task. -/
def laneCleanup (m : String → Option Nat) (key : String) (runId : Nat) :
    String → Option Nat :=
  fun k =>
    if k = key then (if m key = some runId then none else m key) else m k

/-- The webhook batch loop of app.js lines 563–567 (identical in
part_000 lines 619–623), denotationally timed: the handler holds the
current await point `t`; each event's task is chained after its lane
tail (`lanes`), runs for its duration, and — because of the `await` —
the loop only proceeds once it settles. Returns the (start, finish)
interval of each event's task in batch order. -/
def runBatchSeq (lanes : String → Option Nat) (t : Nat) :
    List (String × Nat) → List (Nat × Nat)
  | [] => []
  | (key, dur) :: rest =>
    let start := max t ((lanes key).getD t)
    let fin := start + dur
    (start, fin) ::
      runBatchSeq (fun k => if k = key then some fin else lanes k) fin rest

def Stage.isDedupe : Stage → Bool
  | .dedupe _ => true
  | _ => false

def Stage.isDebounce : Stage → Bool
  | .debounce _ => true
  | _ => false

def Stage.isRate : Stage → Bool
  | .rate _ => true
  | _ => false

def Stage.isEnqueue : Stage → Bool
  | .enqueue _ => true
  | _ => false

/-- Modelled from the spec: the claimed admission order — "Idempotency
Filter first, then Debounce Filter, then Rate Limiter, and only then is
the event enqueued onto the Per-Key Sequencer". Holds of a handler
trace when the idempotency stage strictly precedes the debounce stage,
which strictly precedes the rate-limit stage, which strictly precedes
the sequencer enqueue. -/
def specAdmissionOrder (tr : List Stage) : Prop :=
  tr.findIdx Stage.isDedupe < tr.findIdx Stage.isDebounce ∧
  tr.findIdx Stage.isDebounce < tr.findIdx Stage.isRate ∧
  tr.findIdx Stage.isRate < tr.findIdx Stage.isEnqueue

/-- Modelled from the spec: the claimed independent per-key dispatch of
a batch — each event's task starts as soon as its own key's earlier
tasks have finished, never waiting on other keys. `elapsedOf k` is the
total duration already dispatched for key `k`. -/
def specIndependentStarts (elapsedOf : String → Nat) :
    List (String × Nat) → List Nat
  | [] => []
  | (key, dur) :: rest =>
    elapsedOf key ::
      specIndependentStarts
        (fun k => if k = key then elapsedOf key + dur else elapsedOf k) rest

def evNoSource : Event := ⟨some "W1", "message", none, some "rt", none, none, false, 5⟩

def evBeaconSource : Event :=
  ⟨some "W2", "beacon", some ⟨"beacon", none, none, none⟩, none, none, none, false, 6⟩

def evUserNoId : Event :=
  ⟨some "W3", "message", some ⟨"user", none, none, none⟩, some "rt", none, none, false, 7⟩

def evGroupEmptyId : Event :=
  ⟨some "W4", "message", some ⟨"group", none, some "", none⟩, some "rt", none, none, false, 8⟩

def evRoomNoId : Event :=
  ⟨some "W5", "message", some ⟨"room", none, none, none⟩, some "rt", none, none, false, 9⟩

/-- The refilled token count an `allowRate` call computes before
deciding: `Math.min(RATE_CAP, cur.tokens + elapsed * RATE_REFILL)`
(the `tokens` local of the source). -/
def refilledTokens (cap refillRate : ℚ) (rate : String → Option RateEntry)
    (key : String) (nowSec : Nat) : ℚ :=
  min cap (((rate key).getD ⟨cap, nowSec⟩).tokens +
    ((nowSec : ℚ) - ((((rate key).getD ⟨cap, nowSec⟩).updatedAt : Nat) : ℚ)) * refillRate)

/-- A domain-logic instance for concrete runs: a router that matches
nothing (`routeMessage2` returning `null`). -/
def route0 : String → Event → Option (List (Option Message)) := fun _ _ => none

/-- A concrete text-message event from user `U1`. -/
def evText : Event :=
  ⟨some "E1", "message", some ⟨"user", some "U1", none, none⟩, some "rt",
    some ⟨"text", " Hello ", some "m1"⟩, none, false, 1000⟩

/-- A store state in which user `U1` already has a live debounce window
for the normalized payload `"hello"` (window end 2200 ms). -/
def stPrimed : ProcState :=
  ⟨fun _ => none, fun k => if k = "user:U1|hello" then some 2200 else none,
    fun _ => none, 0, 0⟩

def laneMap1 : String → Option Nat := fun k => if k = "user:U1" then some 7 else none

/-- Modelled from the amended claim: the fully serialized batch
schedule — each event's task starts exactly when the previous event's
task settles, whatever its key. -/
def seqSched (t : Nat) : List (String × Nat) → List (Nat × Nat)
  | [] => []
  | (_, dur) :: rest => (t, t + dur) :: seqSched (t + dur) rest

def evGroup : Event :=
  ⟨some "E3", "message", some ⟨"group", none, some "G1", none⟩, some "rt",
    some ⟨"text", "hi", some "m3"⟩, none, false, 3000⟩

def rFail410 : Nat → SendResult := fun _ => SendResult.fail (some 410) 0

def pFail500 : Nat → SendResult := fun _ => SendResult.fail (some 500) 0

def rawHi : List (Option Message) := [some (textMessage "hi")]

/-- C10: an event with a missing source, or a source type other than
user/group/room, gets the constant key `"unknown"`; a user/group/room
source with a missing or empty id gets `"user:unknown"` /
`"group:unknown"` / `"room:unknown"`; in particular any two events of
the first kind share one sequencer lane and one rate-limit bucket key. -/
theorem c10_keyFromEvent_unknown_classes :
    (∀ e : Event, e.source = none → keyFromEvent e = "unknown") ∧
    (∀ (e : Event) (s : Source), e.source = some s → s.type ≠ "user" →
      s.type ≠ "group" → s.type ≠ "room" → keyFromEvent e = "unknown") ∧
    (∀ (e : Event) (s : Source), e.source = some s → s.type = "user" →
      (s.userId = none ∨ s.userId = some "") →
      keyFromEvent e = "user:unknown") ∧
    (∀ (e : Event) (s : Source), e.source = some s → s.type = "group" →
      (s.groupId = none ∨ s.groupId = some "") →
      keyFromEvent e = "group:unknown") ∧
    (∀ (e : Event) (s : Source), e.source = some s → s.type = "room" →
      (s.roomId = none ∨ s.roomId = some "") →
      keyFromEvent e = "room:unknown") ∧
    (∀ e₁ e₂ : Event,
      (e₁.source = none ∨ ∃ s, e₁.source = some s ∧
        s.type ≠ "user" ∧ s.type ≠ "group" ∧ s.type ≠ "room") →
      (e₂.source = none ∨ ∃ s, e₂.source = some s ∧
        s.type ≠ "user" ∧ s.type ≠ "group" ∧ s.type ≠ "room") →
      keyFromEvent e₁ = keyFromEvent e₂) := by
  refine ⟨?_, ?_, ?_, ?_, ?_, ?_⟩
  · intro e h; simp [keyFromEvent, h]
  · intro e s h h1 h2 h3; simp [keyFromEvent, h, h1, h2, h3]
  · intro e s h h1 h2
    rcases h2 with h2 | h2 <;> simp [keyFromEvent, h, h1, h2]
  · intro e s h h1 h2
    rcases h2 with h2 | h2 <;> simp [keyFromEvent, h, h1, h2]
  · intro e s h h1 h2
    rcases h2 with h2 | h2 <;> simp [keyFromEvent, h, h1, h2]
  · intro e₁ e₂ h1 h2
    have k1 : keyFromEvent e₁ = "unknown" := by
      rcases h1 with h | ⟨s, hs, hu, hg, hr⟩
      · simp [keyFromEvent, h]
      · simp [keyFromEvent, hs, hu, hg, hr]
    have k2 : keyFromEvent e₂ = "unknown" := by
      rcases h2 with h | ⟨s, hs, hu, hg, hr⟩
      · simp [keyFromEvent, h]
      · simp [keyFromEvent, hs, hu, hg, hr]
    rw [k1, k2]

theorem c10_keyFromEvent_unknown_classes_witness :
    keyFromEvent evNoSource = "unknown" ∧
    keyFromEvent evBeaconSource = "unknown" ∧
    keyFromEvent evUserNoId = "user:unknown" ∧
    keyFromEvent evGroupEmptyId = "group:unknown" ∧
    keyFromEvent evRoomNoId = "room:unknown" ∧
    keyFromEvent evNoSource = keyFromEvent evBeaconSource :=
  ⟨c10_keyFromEvent_unknown_classes.1 evNoSource rfl,
   c10_keyFromEvent_unknown_classes.2.1 evBeaconSource ⟨"beacon", none, none, none⟩
     rfl (by decide) (by decide) (by decide),
   c10_keyFromEvent_unknown_classes.2.2.1 evUserNoId ⟨"user", none, none, none⟩
     rfl rfl (Or.inl rfl),
   c10_keyFromEvent_unknown_classes.2.2.2.1 evGroupEmptyId ⟨"group", none, some "", none⟩
     rfl rfl (Or.inr rfl),
   c10_keyFromEvent_unknown_classes.2.2.2.2.1 evRoomNoId ⟨"room", none, none, none⟩
     rfl rfl (Or.inl rfl),
   c10_keyFromEvent_unknown_classes.2.2.2.2.2 evNoSource evBeaconSource
     (Or.inl rfl)
     (Or.inr ⟨⟨"beacon", none, none, none⟩, rfl, by decide, by decide, by decide⟩)⟩

/-- The non-null entries of a list, tagged back with `some`, form a
sublist of the original list. -/
theorem filterMap_id_map_some_sublist (l : List (Option Message)) :
    ((l.filterMap id).map some).Sublist l := by
  induction l with
  | nil => simp
  | cons a t ih =>
    cases a with
    | none => simp [ih.cons none]
    | some m => simpa using ih.cons₂ (some m)

/-- C9: the sanitized message list has at most 5 entries, is exactly a
selection of the non-null raw entries in their original order, and when
sanitation leaves nothing `replyWithRetry` returns success having made
zero POSTs and recorded no payload. -/
theorem c9_sanitize_truncates_and_empty_noop :
    (∀ raw : List (Option Message), (sanitizeMessages raw).length ≤ 5) ∧
    (∀ raw : List (Option Message),
      ((sanitizeMessages raw).map some).Sublist raw) ∧
    (∀ (raw : List (Option Message)) (m : Message),
      m ∈ sanitizeMessages raw → some m ∈ raw) ∧
    (∀ (resp : Nat → SendResult) (raw : List (Option Message)),
      sanitizeMessages raw = [] →
      App.replyWithRetry resp raw = ⟨0, [], none, []⟩) := by
  have hsub : ∀ raw : List (Option Message),
      ((sanitizeMessages raw).map some).Sublist raw := by
    intro raw
    exact ((((raw.filterMap id).take_sublist 5).map some).trans
      (filterMap_id_map_some_sublist raw))
  refine ⟨?_, hsub, ?_, ?_⟩
  · intro raw
    simp [sanitizeMessages, MAX_REPLY_MESSAGES]
  · intro raw m hm
    exact (hsub raw).subset (List.mem_map_of_mem some hm)
  · intro resp raw h
    simp [App.replyWithRetry, h]

theorem c9_sanitize_truncates_and_empty_noop_witness :
    (sanitizeMessages [some (textMessage "a"), none, some (textMessage "b")]).length ≤ 5 ∧
    some (textMessage "a") ∈ [some (textMessage "a"), none, some (textMessage "b")] ∧
    App.replyWithRetry (fun _ => SendResult.ok) [none] = ⟨0, [], none, []⟩ :=
  ⟨c9_sanitize_truncates_and_empty_noop.1 _,
   c9_sanitize_truncates_and_empty_noop.2.2.1
     [some (textMessage "a"), none, some (textMessage "b")] (textMessage "a")
     (by decide),
   c9_sanitize_truncates_and_empty_noop.2.2.2 (fun _ => SendResult.ok) [none]
     (by decide)⟩

/-- Function `allowRate` written through `refilledTokens`. -/
theorem allowRate_eq (cap refillRate : ℚ) (rate : String → Option RateEntry)
    (blocks : Nat) (key : String) (nowSec : Nat) :
    allowRate cap refillRate rate blocks key nowSec =
      if refilledTokens cap refillRate rate key nowSec < 1 then
        (false, fun k => if k = key then
            some ⟨refilledTokens cap refillRate rate key nowSec, nowSec⟩
          else rate k, blocks + 1)
      else
        (true, fun k => if k = key then
            some ⟨refilledTokens cap refillRate rate key nowSec - 1, nowSec⟩
          else rate k, blocks) := rfl

/-- C6: one `allowRate` call, on a bucket whose stored entry satisfies
the bucket invariant (tokens in `[0, cap]`, refill timestamp not in the
future), keeps the stored token count in `[0, cap]`; a rejection stores
exactly the refilled value (which is `< 1`) and increments the
rejection counter, while an acceptance stores exactly the refilled
value minus one and leaves the counter alone. -/
theorem c6_allowRate_token_bucket
    (cap refillRate : ℚ) (rate : String → Option RateEntry) (blocks : Nat)
    (key : String) (nowSec : Nat)
    (hcap : 0 ≤ cap) (hrefill : 0 ≤ refillRate)
    (hentry : ∀ e : RateEntry, rate key = some e →
      0 ≤ e.tokens ∧ e.tokens ≤ cap ∧ e.updatedAt ≤ nowSec) :
    ∃ e : RateEntry,
      (allowRate cap refillRate rate blocks key nowSec).2.1 key = some e ∧
      0 ≤ e.tokens ∧ e.tokens ≤ cap ∧
      ((allowRate cap refillRate rate blocks key nowSec).1 = false →
        e.tokens = refilledTokens cap refillRate rate key nowSec ∧
        refilledTokens cap refillRate rate key nowSec < 1 ∧
        (allowRate cap refillRate rate blocks key nowSec).2.2 = blocks + 1) ∧
      ((allowRate cap refillRate rate blocks key nowSec).1 = true →
        e.tokens = refilledTokens cap refillRate rate key nowSec - 1 ∧
        1 ≤ refilledTokens cap refillRate rate key nowSec ∧
        (allowRate cap refillRate rate blocks key nowSec).2.2 = blocks) := by
  have hΔ : (0 : ℚ) ≤ (nowSec : ℚ) -
      ((((rate key).getD ⟨cap, nowSec⟩).updatedAt : Nat) : ℚ) := by
    cases h : rate key with
    | none => simp [h]
    | some e0 =>
      have h1 := (hentry e0 h).2.2
      have h2 : ((e0.updatedAt : Nat) : ℚ) ≤ (nowSec : ℚ) := by exact_mod_cast h1
      simp only [h, Option.getD]
      linarith
  have hcur0 : 0 ≤ ((rate key).getD ⟨cap, nowSec⟩).tokens := by
    cases h : rate key with
    | none => simpa [h] using hcap
    | some e0 => simpa [h] using (hentry e0 h).1
  have hR0 : 0 ≤ refilledTokens cap refillRate rate key nowSec := by
    unfold refilledTokens
    refine le_min hcap ?_
    have := mul_nonneg hΔ hrefill
    linarith
  have hRcap : refilledTokens cap refillRate rate key nowSec ≤ cap :=
    min_le_left _ _
  rw [allowRate_eq]
  by_cases hlt : refilledTokens cap refillRate rate key nowSec < 1
  · rw [if_pos hlt]
    refine ⟨⟨refilledTokens cap refillRate rate key nowSec, nowSec⟩, by simp,
      hR0, hRcap, fun _ => ⟨rfl, hlt, rfl⟩, fun htrue => ?_⟩
    simp at htrue
  · rw [if_neg hlt]
    push_neg at hlt
    have h1 : (0 : ℚ) ≤ refilledTokens cap refillRate rate key nowSec - 1 := by linarith
    have h2 : refilledTokens cap refillRate rate key nowSec - 1 ≤ cap := by linarith
    exact ⟨⟨refilledTokens cap refillRate rate key nowSec - 1, nowSec⟩, by simp,
      h1, h2, fun hfalse => by simp at hfalse, fun _ => ⟨rfl, hlt, rfl⟩⟩

theorem c6_allowRate_token_bucket_witness :
    ∃ e : RateEntry,
      (allowRate 10 1 (fun _ => none) 0 "user:U1" 100).2.1 "user:U1" = some e ∧
      0 ≤ e.tokens ∧ e.tokens ≤ 10 ∧
      ((allowRate 10 1 (fun _ => none) 0 "user:U1" 100).1 = false →
        e.tokens = refilledTokens 10 1 (fun _ => none) "user:U1" 100 ∧
        refilledTokens 10 1 (fun _ => none) "user:U1" 100 < 1 ∧
        (allowRate 10 1 (fun _ => none) 0 "user:U1" 100).2.2 = 0 + 1) ∧
      ((allowRate 10 1 (fun _ => none) 0 "user:U1" 100).1 = true →
        e.tokens = refilledTokens 10 1 (fun _ => none) "user:U1" 100 - 1 ∧
        1 ≤ refilledTokens 10 1 (fun _ => none) "user:U1" 100 ∧
        (allowRate 10 1 (fun _ => none) 0 "user:U1" 100).2.2 = 0) :=
  c6_allowRate_token_bucket 10 1 (fun _ => none) 0 "user:U1" 100
    (by norm_num) (by norm_num) (fun e h => Option.noConfusion h)

/-- An accepted tap records the window end for its normalized map key. -/
theorem tapGuardAccept_sets (tapMem : String → Option Nat) (blocks : Nat)
    (key p : String) (t : Nat)
    (h : (tapGuardAccept tapMem blocks key p t).1 = true) :
    (tapGuardAccept tapMem blocks key p t).2.1
      (key ++ "|" ++ normalizePayloadText p) = some (t + TAP_DEBOUNCE_MS) := by
  simp only [tapGuardAccept] at h ⊢
  cases hm : tapMem (key ++ "|" ++ normalizePayloadText p) with
  | none => simp
  | some exp =>
    rw [hm] at h
    by_cases hexp : exp > t
    · simp [hexp] at h
    · simp [hexp]

/-- A live window entry forces a rejection that bumps the counter. -/
theorem tapGuardAccept_rejects (tapMem : String → Option Nat) (blocks : Nat)
    (key p : String) (t exp : Nat)
    (hm : tapMem (key ++ "|" ++ normalizePayloadText p) = some exp)
    (hexp : t < exp) :
    tapGuardAccept tapMem blocks key p t = (false, tapMem, blocks + 1) := by
  simp only [tapGuardAccept]
  rw [hm]
  simp [hexp]

/-- Exhaustive shape analysis of one `processEvent` call: the stage
trace is one of six prefixes of the pipeline order (redelivery check,
dedupe, rate, per-type handling), nothing is sent unless a `send` stage
is reached, and the debounce stage occurs only in the postback and
text-message branches. -/
theorem processEvent_shapes (route : String → Event → Option (List (Option Message)))
    (now : Nat) (ev : Event) (st : ProcState) :
    (App.processEvent route now ev st).trace = [.redelivery] ∧
      (App.processEvent route now ev st).sends = [] ∨
    (App.processEvent route now ev st).trace = [.redelivery, .dedupe (eventKey ev)] ∧
      (App.processEvent route now ev st).sends = [] ∨
    (App.processEvent route now ev st).trace =
        [.redelivery, .dedupe (eventKey ev), .rate (keyFromEvent ev)] ∧
      (App.processEvent route now ev st).sends = [] ∨
    (App.processEvent route now ev st).trace =
        [.redelivery, .dedupe (eventKey ev), .rate (keyFromEvent ev)] ++ [.send] ∧
      ev.type = "follow" ∨
    (App.processEvent route now ev st).trace =
        [.redelivery, .dedupe (eventKey ev), .rate (keyFromEvent ev)] ++
          [.debounce (keyFromEvent ev)] ∧
      (App.processEvent route now ev st).sends = [] ∧
      (ev.type = "postback" ∨
        (ev.type = "message" ∧ ∃ m, ev.message = some m ∧ m.type = "text")) ∨
    (App.processEvent route now ev st).trace =
        [.redelivery, .dedupe (eventKey ev), .rate (keyFromEvent ev)] ++
          [.debounce (keyFromEvent ev), .send] ∧
      (ev.type = "postback" ∨
        (ev.type = "message" ∧ ∃ m, ev.message = some m ∧ m.type = "text")) := by
  simp only [App.processEvent]
  split
  · exact Or.inl ⟨rfl, rfl⟩
  · split
    · exact Or.inr (Or.inl ⟨rfl, rfl⟩)
    · split
      · exact Or.inr (Or.inr (Or.inl ⟨rfl, rfl⟩))
      · split
        · rename_i hf
          simp only [Bool.and_eq_true, decide_eq_true_eq] at hf
          exact Or.inr (Or.inr (Or.inr (Or.inl ⟨rfl, hf.1⟩)))
        · split
          · rename_i hpb
            simp only [Bool.and_eq_true, decide_eq_true_eq] at hpb
            split
            · exact Or.inr (Or.inr (Or.inr (Or.inr (Or.inl
                ⟨rfl, rfl, Or.inl hpb.1⟩))))
            · exact Or.inr (Or.inr (Or.inr (Or.inr (Or.inr
                ⟨rfl, Or.inl hpb.1⟩))))
          · split
            · rename_i hmsg
              simp only [Bool.and_eq_true, decide_eq_true_eq] at hmsg
              have hT : ev.type = "message" ∧ ∃ m, ev.message = some m ∧ m.type = "text" := by
                refine ⟨hmsg.1.1, ?_⟩
                have h2 := hmsg.1.2
                cases hm : ev.message with
                | none => rw [hm] at h2; simp at h2
                | some m =>
                  rw [hm] at h2
                  simp at h2
                  exact ⟨m, rfl, h2⟩
              split
              · exact Or.inr (Or.inr (Or.inr (Or.inr (Or.inl
                  ⟨rfl, rfl, Or.inr hT⟩))))
              · split
                · exact Or.inr (Or.inr (Or.inr (Or.inr (Or.inr
                    ⟨rfl, Or.inr hT⟩))))
                · exact Or.inr (Or.inr (Or.inr (Or.inr (Or.inr
                    ⟨rfl, Or.inr hT⟩))))
            · exact Or.inr (Or.inr (Or.inl ⟨rfl, rfl⟩))

theorem evText_trace : (App.processEvent route0 1000 evText emptyProcState).trace =
    [.redelivery, .dedupe "id:E1", .rate "user:U1", .debounce "user:U1", .send] := by
  norm_num [App.processEvent, isDuplicate, eventKey, allowRate, tapGuardAccept,
    keyFromEvent, emptyProcState, route0, evText, strTruthy, RATE_CAP, RATE_REFILL]
  decide

theorem evText_sends : (App.processEvent route0 1000 evText emptyProcState).sends =
    [(App.withQuickReply [some fallbackTextMessage] []).map some] := by
  norm_num [App.processEvent, isDuplicate, eventKey, allowRate, tapGuardAccept,
    keyFromEvent, emptyProcState, route0, evText, strTruthy, RATE_CAP, RATE_REFILL]
  decide

theorem evTextPrimed_trace : (App.processEvent route0 1500 evText stPrimed).trace =
    [.redelivery, .dedupe (eventKey evText), .rate (keyFromEvent evText)] ++
      [.debounce "user:U1"] := by
  norm_num [App.processEvent, isDuplicate, eventKey, allowRate, tapGuardAccept,
    keyFromEvent, stPrimed, route0, evText, strTruthy, RATE_CAP, RATE_REFILL]
  decide

/-- C7: (a) the debounce filter keys on the trimmed, case-folded
payload, so payloads with equal normalization are treated identically;
(b) after a (key, payload) acceptance at `t₁`, any equal-normalization
resubmission strictly inside the `TAP_DEBOUNCE_MS` window is rejected
and bumps the block counter; (c) `processEvent` consults the debounce
filter only for postback events and text message events (never follow
or other types); (d) an event whose trace stops at the debounce stage
(a tap-guard rejection) hands nothing to the delivery engine. -/
theorem c7_debounce_normalized_window_interactive_silent :
    (∀ (tapMem : String → Option Nat) (blocks : Nat) (key p₁ p₂ : String) (t : Nat),
      normalizePayloadText p₁ = normalizePayloadText p₂ →
      tapGuardAccept tapMem blocks key p₁ t = tapGuardAccept tapMem blocks key p₂ t) ∧
    (∀ (tapMem : String → Option Nat) (blocks blocks' : Nat)
      (key p₁ p₂ : String) (t₁ t₂ : Nat),
      normalizePayloadText p₁ = normalizePayloadText p₂ →
      t₂ < t₁ + TAP_DEBOUNCE_MS →
      (tapGuardAccept tapMem blocks key p₁ t₁).1 = true →
      (tapGuardAccept (tapGuardAccept tapMem blocks key p₁ t₁).2.1
        blocks' key p₂ t₂).1 = false ∧
      (tapGuardAccept (tapGuardAccept tapMem blocks key p₁ t₁).2.1
        blocks' key p₂ t₂).2.2 = blocks' + 1) ∧
    (∀ route now ev st k,
      Stage.debounce k ∈ (App.processEvent route now ev st).trace →
      ev.type = "postback" ∨
        (ev.type = "message" ∧ ∃ m, ev.message = some m ∧ m.type = "text")) ∧
    (∀ route now ev st k,
      (App.processEvent route now ev st).trace =
        [.redelivery, .dedupe (eventKey ev), .rate (keyFromEvent ev)] ++
          [.debounce k] →
      (App.processEvent route now ev st).sends = [] ∧
      Stage.send ∉ (App.processEvent route now ev st).trace) := by
  refine ⟨?_, ?_, ?_, ?_⟩
  · intro tapMem blocks key p₁ p₂ t hnorm
    simp only [tapGuardAccept, hnorm]
  · intro tapMem blocks blocks' key p₁ p₂ t₁ t₂ hnorm ht hacc
    have hset := tapGuardAccept_sets tapMem blocks key p₁ t₁ hacc
    have hset₂ : (tapGuardAccept tapMem blocks key p₁ t₁).2.1
        (key ++ "|" ++ normalizePayloadText p₂) = some (t₁ + TAP_DEBOUNCE_MS) := by
      rw [← hnorm]; exact hset
    have hrej := tapGuardAccept_rejects (tapGuardAccept tapMem blocks key p₁ t₁).2.1
      blocks' key p₂ t₂ (t₁ + TAP_DEBOUNCE_MS) hset₂ ht
    rw [hrej]
    exact ⟨rfl, rfl⟩
  · intro route now ev st k h
    rcases processEvent_shapes route now ev st with
      ⟨h1, _⟩ | ⟨h1, _⟩ | ⟨h1, _⟩ | ⟨h1, _⟩ | ⟨h1, _, h3⟩ | ⟨h1, h3⟩
    · rw [h1] at h; simp at h
    · rw [h1] at h; simp at h
    · rw [h1] at h; simp at h
    · rw [h1] at h; simp at h
    · exact h3
    · exact h3
  · intro route now ev st k h
    rcases processEvent_shapes route now ev st with
      ⟨h1, h2⟩ | ⟨h1, h2⟩ | ⟨h1, h2⟩ | ⟨h1, _⟩ | ⟨h1, h2, _⟩ | ⟨h1, _⟩
    · rw [h1] at h; simp at h
    · rw [h1] at h; simp at h
    · rw [h1] at h; simp at h
    · rw [h1] at h; simp at h
    · exact ⟨h2, by rw [h1]; simp⟩
    · rw [h1] at h; simp at h

theorem c7_debounce_normalized_window_interactive_silent_witness :
    tapGuardAccept (fun _ => none) 0 "user:U1" " Hello " 1000 =
      tapGuardAccept (fun _ => none) 0 "user:U1" "hello" 1000 ∧
    ((tapGuardAccept (tapGuardAccept (fun _ => none) 0 "user:U1" " Hello " 1000).2.1
        0 "user:U1" "hello" 1500).1 = false ∧
      (tapGuardAccept (tapGuardAccept (fun _ => none) 0 "user:U1" " Hello " 1000).2.1
        0 "user:U1" "hello" 1500).2.2 = 0 + 1) ∧
    (evText.type = "postback" ∨
      (evText.type = "message" ∧ ∃ m, evText.message = some m ∧ m.type = "text")) ∧
    ((App.processEvent route0 1500 evText stPrimed).sends = [] ∧
      Stage.send ∉ (App.processEvent route0 1500 evText stPrimed).trace) :=
  ⟨c7_debounce_normalized_window_interactive_silent.1 (fun _ => none) 0
      "user:U1" " Hello " "hello" 1000 (by decide),
   c7_debounce_normalized_window_interactive_silent.2.1 (fun _ => none) 0 0
      "user:U1" " Hello " "hello" 1000 1500 (by decide) (by decide) (by decide),
   c7_debounce_normalized_window_interactive_silent.2.2.1 route0 1000 evText
      emptyProcState "user:U1" (by rw [evText_trace]; decide),
   c7_debounce_normalized_window_interactive_silent.2.2.2 route0 1500 evText
      stPrimed "user:U1" evTextPrimed_trace⟩

/-- The retry loop never makes more attempts than its fuel. -/
theorem sendAttempts_posts_le (resp : Nat → SendResult) (fuel : Nat) :
    ∀ attempt, (sendAttempts resp fuel attempt).posts ≤ fuel := by
  induction fuel with
  | zero => intro attempt; simp [sendAttempts]
  | succ n ih =>
    intro attempt
    simp only [sendAttempts]
    cases resp attempt with
    | ok => simp
    | fail status ra =>
      by_cases h : retryableStatus status
      · have := ih (attempt + 1)
        simp only [h, if_true]
        simpa using Nat.add_le_add_right this 1
      · simp [h]

/-- Every recorded wait follows a retryable failure of the attempt it
succeeded, and equals that attempt's computed backoff. -/
theorem sendAttempts_waits_spec (resp : Nat → SendResult) (fuel : Nat) :
    ∀ attempt k, k < (sendAttempts resp fuel attempt).waits.length →
      (sendAttempts resp fuel attempt).waits.get? k =
        some (backoffMs (attempt + k) ((resp (attempt + k)).raOf)) ∧
      retryableStatus ((resp (attempt + k)).statusOf) = true := by
  induction fuel with
  | zero => intro attempt k hk; simp [sendAttempts] at hk
  | succ n ih =>
    intro attempt k hk
    cases hr : resp attempt with
    | ok => rw [sendAttempts, hr] at hk; simp at hk
    | fail status ra =>
      by_cases h : retryableStatus status
      · rw [sendAttempts, hr] at hk ⊢
        simp only [h, if_true] at hk ⊢
        cases k with
        | zero =>
          refine ⟨by simp [hr, SendResult.raOf], ?_⟩
          simp only [Nat.add_zero, hr, SendResult.statusOf]
          exact h
        | succ k =>
          simp only [List.length_cons, Nat.succ_lt_succ_iff] at hk
          have harith : attempt + 1 + k = attempt + (k + 1) := by omega
          have hres := ih (attempt + 1) k (by simpa using hk)
          rw [harith] at hres
          exact ⟨by simpa using hres.1, hres.2⟩
      · rw [sendAttempts, hr] at hk; simp [h] at hk

/-- With retryable failures throughout the window, the loop spends its
whole attempt budget. -/
theorem sendAttempts_posts_eq (resp : Nat → SendResult) (fuel : Nat) :
    ∀ attempt,
      (∀ k, attempt ≤ k → k < attempt + fuel →
        retryableStatus ((resp k).statusOf) = true) →
      (sendAttempts resp fuel attempt).posts = fuel := by
  induction fuel with
  | zero => intro attempt _; simp [sendAttempts]
  | succ n ih =>
    intro attempt h
    have hat : retryableStatus ((resp attempt).statusOf) = true :=
      h attempt le_rfl (by omega)
    cases hr : resp attempt with
    | ok => rw [hr] at hat; simp [SendResult.statusOf, retryableStatus] at hat
    | fail status ra =>
      rw [hr] at hat
      simp only [SendResult.statusOf] at hat
      rw [sendAttempts, hr]
      simp only [hat, if_true]
      have := ih (attempt + 1) (fun k hk1 hk2 => h k (by omega) (by omega))
      simp [this]

/-- C3: the primary reply loop makes at most 4 attempts; the `k`-th
recorded wait (0-based, slept after attempt `k+1`) follows a retryable
(429 or 5xx) failure and equals the served `retry-after` in seconds
times 1000 when positive, else `min(2000 · 2^k, 8000)` ms; and when
every attempt in the budget fails retryably the loop makes exactly 4
attempts. -/
theorem c3_reply_retry_backoff_policy :
    (∀ (resp : Nat → SendResult) (raw : List (Option Message)),
      (App.replyWithRetry resp raw).posts ≤ 4) ∧
    (∀ (resp : Nat → SendResult) (raw : List (Option Message)) (k : Nat),
      k < (App.replyWithRetry resp raw).waits.length →
      (App.replyWithRetry resp raw).waits.get? k =
        some (if 0 < (resp (k + 1)).raOf then (resp (k + 1)).raOf * 1000
          else min ((2000 : Int) * 2 ^ k) 8000) ∧
      retryableStatus ((resp (k + 1)).statusOf) = true) ∧
    (∀ (resp : Nat → SendResult) (raw : List (Option Message)),
      sanitizeMessages raw ≠ [] →
      (∀ k, 1 ≤ k → k ≤ 4 → retryableStatus ((resp k).statusOf) = true) →
      (App.replyWithRetry resp raw).posts = 4) := by
  refine ⟨?_, ?_, ?_⟩
  · intro resp raw
    by_cases h : (sanitizeMessages raw).isEmpty
    · simp [App.replyWithRetry, h]
    · simp only [App.replyWithRetry, h, if_false, Bool.false_eq_true]
      simpa using sendAttempts_posts_le resp 4 1
  · intro resp raw k hk
    by_cases h : (sanitizeMessages raw).isEmpty
    · rw [App.replyWithRetry] at hk
      simp [h] at hk
    · rw [App.replyWithRetry] at hk ⊢
      simp only [h, if_false, Bool.false_eq_true] at hk ⊢
      have hres := sendAttempts_waits_spec resp 4 1 k (by simpa using hk)
      have harith : 1 + k = k + 1 := by omega
      rw [harith] at hres
      refine ⟨?_, hres.2⟩
      have hb : backoffMs (k + 1) ((resp (k + 1)).raOf) =
          if 0 < (resp (k + 1)).raOf then (resp (k + 1)).raOf * 1000
          else min ((2000 : Int) * 2 ^ k) 8000 := by
        simp [backoffMs]
      rw [← hb]
      simpa using hres.1
  · intro resp raw hne hall
    have h : (sanitizeMessages raw).isEmpty = false := by
      simpa [List.isEmpty_iff] using hne
    rw [App.replyWithRetry]
    simp only [h, if_false, Bool.false_eq_true]
    have := sendAttempts_posts_eq resp 4 1 (fun k hk1 hk2 => hall k hk1 (by omega))
    simpa using this

theorem c3_reply_retry_backoff_policy_witness :
    (App.replyWithRetry (fun _ => SendResult.fail (some 429) 2)
      [some (textMessage "hi")]).posts ≤ 4 ∧
    ((App.replyWithRetry (fun _ => SendResult.fail (some 429) 2)
        [some (textMessage "hi")]).waits.get? 0 =
      some (if 0 < ((fun _ => SendResult.fail (some 429) 2) (0 + 1) :
          SendResult).raOf then
        ((fun _ => SendResult.fail (some 429) 2) (0 + 1) : SendResult).raOf * 1000
      else min ((2000 : Int) * 2 ^ 0) 8000) ∧
      retryableStatus (((fun _ => SendResult.fail (some 429) 2) (0 + 1) :
        SendResult).statusOf) = true) ∧
    (App.replyWithRetry (fun _ => SendResult.fail (some 429) 2)
      [some (textMessage "hi")]).posts = 4 :=
  ⟨c3_reply_retry_backoff_policy.1 (fun _ => SendResult.fail (some 429) 2)
      [some (textMessage "hi")],
   c3_reply_retry_backoff_policy.2.1 (fun _ => SendResult.fail (some 429) 2)
      [some (textMessage "hi")] 0 (by decide),
   c3_reply_retry_backoff_policy.2.2 (fun _ => SendResult.fail (some 429) 2)
      [some (textMessage "hi")] (by decide) (fun _ _ _ => rfl)⟩

/-- Folding the chain step appends exactly the submitted task ids, in
submission order, to whatever already ran — whatever the success flags. -/
theorem laneChain_foldl_trace (ts : List PTask) :
    ∀ p : Prom, (ts.foldl chainStep p).trace = p.trace ++ ts.map PTask.id := by
  induction ts with
  | nil => intro p; simp
  | cons t rest ih =>
    intro p
    rw [List.foldl_cons, ih]
    simp [chainStep, pthen, pcatchSwallow, runTask]

/-- C5: tasks submitted to one key lane execute exactly once each, in
submission order, with any task's failure swallowed at the chain join
(so a failed A never prevents B from running); in particular for a
pair A then B the executed trace is `[A.id, B.id]` whatever A's
outcome; and the `.finally` cleanup removes the lane map entry exactly
when it still points at the settling task, leaving it (and every other
key) untouched otherwise. -/
theorem c5_sequencer_fifo_swallow_cleanup :
    (∀ ts : List PTask, (laneChain ts).trace = ts.map PTask.id) ∧
    (∀ A B : PTask, (laneChain [A, B]).trace = [A.id, B.id]) ∧
    (∀ (m : String → Option Nat) (key : String) (runId : Nat),
      m key = some runId → laneCleanup m key runId key = none) ∧
    (∀ (m : String → Option Nat) (key : String) (runId : Nat),
      m key ≠ some runId → laneCleanup m key runId key = m key) ∧
    (∀ (m : String → Option Nat) (key k : String) (runId : Nat),
      k ≠ key → laneCleanup m key runId k = m k) := by
  have h1 : ∀ ts : List PTask, (laneChain ts).trace = ts.map PTask.id := by
    intro ts
    rw [laneChain, laneChain_foldl_trace]
    simp [presolve]
  refine ⟨h1, ?_, ?_, ?_, ?_⟩
  · intro A B
    simpa using h1 [A, B]
  · intro m key runId h
    simp [laneCleanup, h]
  · intro m key runId h
    simp [laneCleanup, h]
  · intro m key k runId h
    simp [laneCleanup, h]

theorem c5_sequencer_fifo_swallow_cleanup_witness :
    (laneChain [⟨1, false⟩, ⟨2, true⟩]).trace = [1, 2] ∧
    laneCleanup laneMap1 "user:U1" 7 "user:U1" = none ∧
    laneCleanup laneMap1 "user:U1" 9 "user:U1" = laneMap1 "user:U1" ∧
    laneCleanup laneMap1 "user:U1" 7 "user:U2" = laneMap1 "user:U2" :=
  ⟨c5_sequencer_fifo_swallow_cleanup.2.1 ⟨1, false⟩ ⟨2, true⟩,
   c5_sequencer_fifo_swallow_cleanup.2.2.1 laneMap1 "user:U1" 7 (by decide),
   c5_sequencer_fifo_swallow_cleanup.2.2.2.1 laneMap1 "user:U1" 9 (by decide),
   c5_sequencer_fifo_swallow_cleanup.2.2.2.2 laneMap1 "user:U1" "user:U2" 7 (by decide)⟩

/-- When no lane tail finishes after the handler's await point, the
batch loop degenerates to the fully serialized schedule, keys ignored. -/
theorem runBatchSeq_eq_seqSched (pairs : List (String × Nat)) :
    ∀ (lanes : String → Option Nat) (t : Nat),
      (∀ k v, lanes k = some v → v ≤ t) →
      runBatchSeq lanes t pairs = seqSched t pairs := by
  induction pairs with
  | nil => intro lanes t _; simp [runBatchSeq, seqSched]
  | cons p rest ih =>
    intro lanes t h
    obtain ⟨key, dur⟩ := p
    have hstart : max t ((lanes key).getD t) = t := by
      cases hl : lanes key with
      | none => simp
      | some v => simpa using max_eq_left (h key v hl)
    show (max t ((lanes key).getD t), max t ((lanes key).getD t) + dur) ::
        runBatchSeq
          (fun k => if k = key then some (max t ((lanes key).getD t) + dur) else lanes k)
          (max t ((lanes key).getD t) + dur) rest =
      (t, t + dur) :: seqSched (t + dur) rest
    rw [hstart]
    congr 1
    apply ih
    intro k v hkv
    by_cases hk : k = key
    · subst hk
      rw [if_pos rfl] at hkv
      have hv := Option.some.inj hkv
      omega
    · rw [if_neg hk] at hkv
      exact le_trans (h k v hkv) (by omega)

/-- C8, counterexample: a batch holding one event for `user:U1` and one
for `group:G1` (distinct keys) is dispatched by the webhook loop so
that the second task starts only at the first task's settle time (5),
not at the independent per-key start (0) the claim requires. -/
theorem c8_counterexample_batch_waits_across_keys :
    keyFromEvent evText ≠ keyFromEvent evGroup ∧
    runBatchSeq (fun _ => none) 0
      [(keyFromEvent evText, 5), (keyFromEvent evGroup, 3)] = [(0, 5), (5, 8)] ∧
    specIndependentStarts (fun _ => 0)
      [(keyFromEvent evText, 5), (keyFromEvent evGroup, 3)] = [0, 0] ∧
    (runBatchSeq (fun _ => none) 0
      [(keyFromEvent evText, 5), (keyFromEvent evGroup, 3)]).map Prod.fst ≠
      specIndependentStarts (fun _ => 0)
        [(keyFromEvent evText, 5), (keyFromEvent evGroup, 3)] := by
  refine ⟨by decide, by decide, by decide, by decide⟩

/-- C8, amended: the webhook batch loop `await`s each event's sequencer
task before dispatching the next, so a batch starting with no pending
lanes is processed on the fully serialized schedule: every task —
whatever its key — starts exactly when the previous task settles.
Cross-key concurrency can only arise between separate webhook requests,
not inside one batch. -/
theorem c8_amended_batch_fully_serialized (pairs : List (String × Nat)) :
    runBatchSeq (fun _ => none) 0 pairs = seqSched 0 pairs :=
  runBatchSeq_eq_seqSched pairs (fun _ => none) 0
    (fun _ _ h => Option.noConfusion h)

/-- C4, counterexample: for a plain text message through fresh stores,
the handler trace is enqueue-first with the rate stage before the
debounce stage, so the claimed order (idempotency, then debounce, then
rate limiter, and only then the sequencer enqueue) fails. -/
theorem c4_counterexample_admission_order : ¬ specAdmissionOrder
    (App.handleEventTrace route0 1000 evText emptyProcState) := by
  have htr : App.handleEventTrace route0 1000 evText emptyProcState =
      Stage.enqueue (keyFromEvent evText) ::
        (App.processEvent route0 1000 evText emptyProcState).trace := rfl
  rw [htr, evText_trace]
  unfold specAdmissionOrder
  decide

/-- C4, amended: each event is enqueued onto its sequencer lane first,
and every admission stage then runs inside the serialized slot, in the
order idempotency (redelivery check plus dedupe), then rate limiter,
then — only for postback/text events — debounce, then delivery. -/
theorem c4_amended_enqueue_first_dedupe_rate_debounce :
    ∀ (route : String → Event → Option (List (Option Message)))
      (now : Nat) (ev : Event) (st : ProcState), ∃ rest,
      App.handleEventTrace route now ev st =
        Stage.enqueue (keyFromEvent ev) :: rest ∧
      (rest = [.redelivery] ∨
       rest = [.redelivery, .dedupe (eventKey ev)] ∨
       rest = [.redelivery, .dedupe (eventKey ev), .rate (keyFromEvent ev)] ∨
       rest = [.redelivery, .dedupe (eventKey ev), .rate (keyFromEvent ev)] ++
         [.send] ∨
       rest = [.redelivery, .dedupe (eventKey ev), .rate (keyFromEvent ev)] ++
         [.debounce (keyFromEvent ev)] ∨
       rest = [.redelivery, .dedupe (eventKey ev), .rate (keyFromEvent ev)] ++
         [.debounce (keyFromEvent ev), .send]) := by
  intro route now ev st
  refine ⟨(App.processEvent route now ev st).trace, rfl, ?_⟩
  rcases processEvent_shapes route now ev st with
    ⟨h1, _⟩ | ⟨h1, _⟩ | ⟨h1, _⟩ | ⟨h1, _⟩ | ⟨h1, _, _⟩ | ⟨h1, _⟩
  · exact Or.inl h1
  · exact Or.inr (Or.inl h1)
  · exact Or.inr (Or.inr (Or.inl h1))
  · exact Or.inr (Or.inr (Or.inr (Or.inl h1)))
  · exact Or.inr (Or.inr (Or.inr (Or.inr (Or.inl h1))))
  · exact Or.inr (Or.inr (Or.inr (Or.inr (Or.inr h1))))

/-- C1, counterexample: in app.js, the unrouted-text branch hands the
delivery path `withQuickReply([fallback])` with the default empty item
list; `withQuickReply` attaches `quickReply: { items: [] }` anyway, and
`replyWithRetry` transmits the sanitized list unchanged, so the
transmitted payload carries a quick-reply affordance with zero
options. -/
theorem c1_counterexample_empty_quickreply_transmitted :
    (App.processEvent route0 1000 evText emptyProcState).sends =
      [(App.withQuickReply [some fallbackTextMessage] []).map some] ∧
    App.withQuickReply [some fallbackTextMessage] [] =
      [{ body := "fallback-menu-text", quickReply := some [] }] ∧
    (App.replyWithRetry (fun _ => SendResult.ok)
        ((App.withQuickReply [some fallbackTextMessage] []).map some)).payload =
      [{ body := "fallback-menu-text", quickReply := some [] }] :=
  ⟨evText_sends, by decide, by decide⟩

/-- No message surviving `stripEmptyQuickReply` carries an empty
quick-reply items array. -/
theorem stripEmptyQuickReply_no_empty (l : List Message) (m : Message)
    (hm : m ∈ Refactored.stripEmptyQuickReply l) : m.quickReply ≠ some [] := by
  simp only [Refactored.stripEmptyQuickReply, List.mem_map] at hm
  obtain ⟨x, _, hx⟩ := hm
  subst hx
  cases hq : x.quickReply with
  | none => simp [hq]
  | some items =>
    cases items with
    | nil => simp [hq]
    | cons a t => simp [hq]

/-- C1, amended: in the refactored draft the guarantee holds — the
payload `replyWithRetry`/`pushWithRetry` actually transmit never
contains a quick-reply affordance with zero options (the pre-send
`stripEmptyQuickReply` guard), and `withQuickReply` either leaves the
sanitized list untouched or attaches a nonempty items array (the
build-time guard); app.js, by contrast, has neither guard. -/
theorem c1_amended_refactored_double_guard :
    (∀ (resp : Nat → SendResult) (raw : List (Option Message)) (m : Message),
      m ∈ (Refactored.replyWithRetry resp raw).payload → m.quickReply ≠ some []) ∧
    (∀ (resp : Nat → SendResult) (raw : List (Option Message)) (m : Message),
      m ∈ (Refactored.pushWithRetry resp raw).payload → m.quickReply ≠ some []) ∧
    (∀ (msgs : List (Option Message)) (items : List (Option QRItem)),
      Refactored.withQuickReply msgs items = sanitizeMessages msgs ∨
      ∃ h rest q, sanitizeMessages msgs = h :: rest ∧ q ≠ [] ∧
        Refactored.withQuickReply msgs items =
          { h with quickReply := some q } :: rest) := by
  refine ⟨?_, ?_, ?_⟩
  · intro resp raw m hm
    by_cases h : (Refactored.stripEmptyQuickReply (sanitizeMessages raw)).isEmpty
    · rw [Refactored.replyWithRetry] at hm
      simp [h] at hm
    · rw [Refactored.replyWithRetry] at hm
      simp only [h, if_false, Bool.false_eq_true] at hm
      exact stripEmptyQuickReply_no_empty _ m (by simpa using hm)
  · intro resp raw m hm
    by_cases h : (Refactored.stripEmptyQuickReply (sanitizeMessages raw)).isEmpty
    · rw [Refactored.pushWithRetry] at hm
      simp [h] at hm
    · rw [Refactored.pushWithRetry] at hm
      simp only [h, if_false, Bool.false_eq_true] at hm
      exact stripEmptyQuickReply_no_empty _ m (by simpa using hm)
  · intro msgs items
    cases hs : sanitizeMessages msgs with
    | nil => left; simp [Refactored.withQuickReply, hs]
    | cons head rest =>
      by_cases hi : items.isEmpty
      · left; simp [Refactored.withQuickReply, hs, hi]
      · by_cases hqe : (((items.filterMap id).filter
            (fun i => !(i.label = "") && !(i.text = ""))).map toAction).isEmpty
        · left; simp [Refactored.withQuickReply, hs, hi, hqe]
        · right
          refine ⟨head, rest,
            ((items.filterMap id).filter
              (fun i => !(i.label = "") && !(i.text = ""))).map toAction,
            rfl, by simpa [List.isEmpty_iff] using hqe, ?_⟩
          simp [Refactored.withQuickReply, hs, hi, hqe]

theorem c1_amended_refactored_double_guard_witness :
    (({ body := "x", quickReply := some [⟨"l", "t"⟩] } : Message).quickReply ≠
      some []) ∧
    (Refactored.withQuickReply [some (textMessage "x")] [] =
      sanitizeMessages [some (textMessage "x")] ∨
    ∃ h rest q, sanitizeMessages [some (textMessage "x")] = h :: rest ∧ q ≠ [] ∧
      Refactored.withQuickReply [some (textMessage "x")] [] =
        { h with quickReply := some q } :: rest) :=
  ⟨c1_amended_refactored_double_guard.1 (fun _ => SendResult.ok)
      [some ({ body := "x", quickReply := some [⟨"l", "t"⟩] } : Message)]
      { body := "x", quickReply := some [⟨"l", "t"⟩] } (by decide),
   c1_amended_refactored_double_guard.2.2 [some (textMessage "x")] []⟩

/-- The retry loop only ever rethrows non-retryable failures: a 429 or
5xx never escapes it as an exception. -/
theorem sendAttempts_thrown_not_retryable (resp : Nat → SendResult) (fuel : Nat) :
    ∀ attempt st, (sendAttempts resp fuel attempt).thrown = some st →
      retryableStatus st = false := by
  induction fuel with
  | zero => intro attempt st h; simp [sendAttempts] at h
  | succ n ih =>
    intro attempt st h
    cases hr : resp attempt with
    | ok => rw [sendAttempts, hr] at h; simp at h
    | fail status ra =>
      by_cases hret : retryableStatus status
      · rw [sendAttempts, hr] at h
        simp only [hret, if_true] at h
        exact ih (attempt + 1) st (by simpa using h)
      · rw [sendAttempts, hr] at h
        simp only [hret, Bool.false_eq_true, if_false] at h
        simp only [Option.some.injEq] at h
        subst h
        simpa using hret

/-- C2, counterexample: with the primary reply failing 410 (expired
handle) and the push endpoint failing 500 persistently, app.js performs
the fallback as a single `pushMessage` POST — not the claimed
independent 4-attempt backoff loop (which the refactored
`pushWithRetry` does perform on the same oracle). -/
theorem c2_counterexample_single_push_attempt :
    (App.replyWithRetryOrPush rFail410 pFail500 evText rawHi).reply.posts = 1 ∧
    (App.replyWithRetryOrPush rFail410 pFail500 evText rawHi).push.posts = 1 ∧
    (Refactored.pushWithRetry pFail500 rawHi).posts = 4 ∧
    (App.replyWithRetryOrPush rFail410 pFail500 evText rawHi).push.posts ≠ 4 := by
  refine ⟨by decide, by decide, by decide, by decide⟩

/-- C2, amended: on a non-retryable client failure of the primary
channel (the only kind the reply loop rethrows — never 429/5xx), the
refactored engine falls back to `pushWithRetry` — an independent loop
of at most 4 attempts under the same backoff rule — exactly when the
event is from a user with a truthy userId; with no resolvable identity
(or a successful reply) zero fallback attempts happen and the failure
is rethrown. In app.js the gating is the same but the fallback is a
single `pushMessage` attempt with no retry loop. -/
theorem c2_amended_fallback_gating_and_loop :
    (∀ (resp : Nat → SendResult) (raw : List (Option Message)) (s : Int),
      (Refactored.replyWithRetry resp raw).thrown = some (some s) →
      ¬(s = 429 ∨ (500 ≤ s ∧ s < 600))) ∧
    (∀ (rResp pResp : Nat → SendResult) (ev : Event)
      (raw : List (Option Message)) (s : Int) (uid : String),
      (Refactored.replyWithRetry rResp raw).thrown = some (some s) →
      400 ≤ s → s < 500 → fallbackTarget ev = some uid →
      (Refactored.replyWithRetryOrPush rResp pResp ev raw).push =
        Refactored.pushWithRetry pResp raw) ∧
    (∀ (rResp pResp : Nat → SendResult) (ev : Event)
      (raw : List (Option Message)) (st : Option Int),
      (Refactored.replyWithRetry rResp raw).thrown = some st →
      fallbackTarget ev = none →
      (Refactored.replyWithRetryOrPush rResp pResp ev raw).push.posts = 0 ∧
      (Refactored.replyWithRetryOrPush rResp pResp ev raw).thrown = some st) ∧
    (∀ (rResp pResp : Nat → SendResult) (ev : Event)
      (raw : List (Option Message)),
      (Refactored.replyWithRetry rResp raw).thrown = none →
      (Refactored.replyWithRetryOrPush rResp pResp ev raw).push.posts = 0) ∧
    (∀ (pResp : Nat → SendResult) (raw : List (Option Message)),
      (Refactored.pushWithRetry pResp raw).posts ≤ 4) ∧
    (∀ (pResp : Nat → SendResult) (raw : List (Option Message)) (k : Nat),
      k < (Refactored.pushWithRetry pResp raw).waits.length →
      (Refactored.pushWithRetry pResp raw).waits.get? k =
        some (if 0 < (pResp (k + 1)).raOf then (pResp (k + 1)).raOf * 1000
          else min ((2000 : Int) * 2 ^ k) 8000)) ∧
    (∀ (rResp pResp : Nat → SendResult) (ev : Event)
      (raw : List (Option Message)),
      (App.replyWithRetryOrPush rResp pResp ev raw).push.posts ≤ 1) := by
  refine ⟨?_, ?_, ?_, ?_, ?_, ?_, ?_⟩
  · intro resp raw s h
    by_cases he : (Refactored.stripEmptyQuickReply (sanitizeMessages raw)).isEmpty
    · rw [Refactored.replyWithRetry] at h
      simp [he] at h
    · rw [Refactored.replyWithRetry] at h
      simp only [he, if_false, Bool.false_eq_true] at h
      have := sendAttempts_thrown_not_retryable resp 4 1 (some s) (by simpa using h)
      simpa [retryableStatus] using this
  · intro rResp pResp ev raw s uid h h4 h5 hft
    simp only [Refactored.replyWithRetryOrPush, h, hft]
    simp [h4, h5]
  · intro rResp pResp ev raw st h hft
    cases st with
    | none => simp [Refactored.replyWithRetryOrPush, h, hft, emptySendLog]
    | some s => simp [Refactored.replyWithRetryOrPush, h, hft, emptySendLog]
  · intro rResp pResp ev raw h
    simp [Refactored.replyWithRetryOrPush, h, emptySendLog]
  · intro pResp raw
    by_cases he : (Refactored.stripEmptyQuickReply (sanitizeMessages raw)).isEmpty
    · simp [Refactored.pushWithRetry, he]
    · rw [Refactored.pushWithRetry]
      simp only [he, if_false, Bool.false_eq_true]
      simpa using sendAttempts_posts_le pResp 4 1
  · intro pResp raw k hk
    by_cases he : (Refactored.stripEmptyQuickReply (sanitizeMessages raw)).isEmpty
    · rw [Refactored.pushWithRetry] at hk
      simp [he] at hk
    · rw [Refactored.pushWithRetry] at hk ⊢
      simp only [he, if_false, Bool.false_eq_true] at hk ⊢
      have hres := sendAttempts_waits_spec pResp 4 1 k (by simpa using hk)
      have harith : 1 + k = k + 1 := by omega
      rw [harith] at hres
      have hb : backoffMs (k + 1) ((pResp (k + 1)).raOf) =
          if 0 < (pResp (k + 1)).raOf then (pResp (k + 1)).raOf * 1000
          else min ((2000 : Int) * 2 ^ k) 8000 := by
        simp [backoffMs]
      rw [← hb]
      simpa using hres.1
  · intro rResp pResp ev raw
    cases h : (App.replyWithRetry rResp raw).thrown with
    | none => simp [App.replyWithRetryOrPush, h, emptySendLog]
    | some status =>
      cases status with
      | none => simp [App.replyWithRetryOrPush, h, emptySendLog]
      | some s =>
        cases hft : fallbackTarget ev with
        | none => simp [App.replyWithRetryOrPush, h, hft, emptySendLog]
        | some uid =>
          by_cases hs : 400 ≤ s ∧ s < 500
          · simp only [App.replyWithRetryOrPush, h, hft, if_pos hs]
            cases hp : pResp 1 with
            | ok => simp [App.pushMessage, hp]
            | fail st ra => simp [App.pushMessage, hp]
          · simp [App.replyWithRetryOrPush, h, hft, if_neg hs, emptySendLog]

theorem c2_amended_fallback_gating_and_loop_witness :
    ¬((410 : Int) = 429 ∨ ((500 ≤ (410 : Int)) ∧ (410 : Int) < 600)) ∧
    (Refactored.replyWithRetryOrPush rFail410 pFail500 evText rawHi).push =
      Refactored.pushWithRetry pFail500 rawHi ∧
    ((Refactored.replyWithRetryOrPush rFail410 pFail500 evBeaconSource rawHi).push.posts = 0 ∧
      (Refactored.replyWithRetryOrPush rFail410 pFail500 evBeaconSource rawHi).thrown =
        some (some 410)) ∧
    (Refactored.pushWithRetry pFail500 rawHi).posts ≤ 4 ∧
    (App.replyWithRetryOrPush rFail410 pFail500 evText rawHi).push.posts ≤ 1 :=
  ⟨c2_amended_fallback_gating_and_loop.1 rFail410 rawHi 410 (by decide),
   c2_amended_fallback_gating_and_loop.2.1 rFail410 pFail500 evText rawHi 410 "U1"
     (by decide) (by decide) (by decide) (by decide),
   c2_amended_fallback_gating_and_loop.2.2.1 rFail410 pFail500 evBeaconSource rawHi
     (some 410) (by decide) (by decide),
   c2_amended_fallback_gating_and_loop.2.2.2.2.1 pFail500 rawHi,
   c2_amended_fallback_gating_and_loop.2.2.2.2.2.2 rFail410 pFail500 evText rawHi⟩
